import Mathlib

/-!
Verification of the structured-extraction validation and reconciliation
logic of the going-dutch receipt backend.

The embedding follows the TypeScript source:
* the Zod schemas of src/types/receipt.ts become structures together with
  boolean schema-conformance checks;
* `validateBusinessLogic` of the receipt processor becomes a function
  returning `Except String (List Warning)`: `Except.error` models a thrown
  exception, and the warning list collects the `console.warn` diagnostics
  emitted on the accepting path;
* the inner try/catch of `processReceiptImage` (parse, validate, fall back
  to the safe default) becomes `processParsedResponse`;
* JavaScript numbers are modelled as exact rationals, and JavaScript string
  truthiness (`""` and `undefined` are falsy) is made explicit.
-/

/-- One line item of a receipt (ReceiptItemSchema). -/
structure ReceiptItem where
  name : String
  quantity : ℚ
  price : ℚ
deriving DecidableEq, Repr

/-- A tax/fee/tip entry (AdditionalCostSchema).  The boolean field is named
`additionalCost` in the source schema; it flags whether the amount is
already included in the item subtotal. -/
structure AdditionalCost where
  name : String
  amount : ℚ
  additionalCost : Bool
deriving DecidableEq, Repr

/-- The structured extraction result (ReceiptAnalysisResultSchema).
`additionalCosts`, `currencySymbol` and `errorText` are optional fields. -/
structure ReceiptAnalysisResult where
  items : List ReceiptItem
  additionalCosts : Option (List AdditionalCost)
  totalPrice : ℚ
  currency : String
  currencySymbol : Option String
  errorText : Option String
deriving DecidableEq, Repr

/-- JavaScript String.prototype.trim: strip leading and trailing
whitespace.  Written over the character list so that it evaluates by
kernel reduction. -/
def strTrim (s : String) : String :=
  ⟨((s.data.dropWhile Char.isWhitespace).reverse.dropWhile
      Char.isWhitespace).reverse⟩

/-- JavaScript truthiness of an optional string field: `undefined` and the
empty string are falsy, every other string is truthy. -/
def errTruthy : Option String → Bool
  | none => false
  | some s => s != ""

/-- Zod conformance of a receipt item: `name` min length 1, `quantity`
positive, `price` nonnegative. -/
def ReceiptItem.schemaOk (i : ReceiptItem) : Bool :=
  decide (1 ≤ i.name.length) && decide (0 < i.quantity) && decide (0 ≤ i.price)

/-- Zod conformance of an additional cost: `name` min length 1, `amount`
nonnegative. -/
def AdditionalCost.schemaOk (c : AdditionalCost) : Bool :=
  decide (1 ≤ c.name.length) && decide (0 ≤ c.amount)

/-- Zod conformance of a whole extraction result
(ReceiptAnalysisResultSchema): items and additional costs conformant,
`totalPrice` nonnegative, `currency` min length 1. -/
def ReceiptAnalysisResult.schemaOk (r : ReceiptAnalysisResult) : Bool :=
  r.items.all ReceiptItem.schemaOk
    && (match r.additionalCosts with
        | none => true
        | some cs => cs.all AdditionalCost.schemaOk)
    && decide (0 ≤ r.totalPrice)
    && decide (1 ≤ r.currency.length)

/-- Diagnostics the validator logs via `console.warn` on the accepting
path. -/
inductive Warning where
  | totalPriceMismatch (calculated reported : ℚ)
  | noItemsFound
deriving DecidableEq, Repr

deriving instance DecidableEq for Except

/-- The one-cent tolerance of the arithmetic reconciliation. -/
def tolerance : ℚ := 0.01

/-- JavaScript Math.abs on an exact rational. -/
def mathAbs (q : ℚ) : ℚ := if q < 0 then -q else q

/-- Sum of `price * quantity` over the items, as the source reduce. -/
def itemsTotal (items : List ReceiptItem) : ℚ :=
  items.foldl (fun sum item => sum + item.price * item.quantity) 0

/-- Sum of `amount` over the additional costs whose `additionalCost` flag
is set, as the source filter-reduce. -/
def includedAdditionalCosts (costs : List AdditionalCost) : ℚ :=
  (costs.filter fun cost => cost.additionalCost).foldl
    (fun sum cost => sum + cost.amount) 0

/-- The arithmetic-reconciliation block of `validateBusinessLogic`: when
`errorText` is falsy and there are items, compare the calculated total
against the reported one and warn beyond the tolerance. -/
def reconciliationWarnings (result : ReceiptAnalysisResult) : List Warning :=
  if ¬ errTruthy result.errorText ∧ 0 < result.items.length then
    if tolerance < mathAbs (itemsTotal result.items
        + includedAdditionalCosts (result.additionalCosts.getD [])
        - result.totalPrice) then
      [Warning.totalPriceMismatch
        (itemsTotal result.items
          + includedAdditionalCosts (result.additionalCosts.getD []))
        result.totalPrice]
    else []
  else []

/-- The empty-result advisory of `validateBusinessLogic`: when `errorText`
is falsy and there are no items, warn that nothing was found. -/
def advisoryWarnings (result : ReceiptAnalysisResult) : List Warning :=
  if ¬ errTruthy result.errorText ∧ result.items.length = 0 then
    [Warning.noItemsFound]
  else []

/-- The additional-costs loop of `validateBusinessLogic`: throw on a
negative amount or an empty/whitespace-only name, in order. -/
def checkAdditionalCosts : List AdditionalCost → Except String Unit
  | [] => Except.ok ()
  | cost :: rest =>
    if cost.amount < 0 then
      Except.error ("Additional cost amount cannot be negative: " ++ cost.name)
    else if cost.name = "" ∨ (strTrim cost.name).length = 0 then
      Except.error "Additional cost name cannot be empty"
    else checkAdditionalCosts rest

/-- `validateBusinessLogic` of the receipt processor.  `Except.error`
models a thrown exception; on success the list collects the diagnostics
logged on the way.  The checks run in source order: reconciliation
(warn only), currency format, error/items exclusivity, empty-result
advisory (warn only), additional-cost sanity. -/
def validateBusinessLogic (result : ReceiptAnalysisResult) :
    Except String (List Warning) :=
  if result.currency ≠ "" ∧ result.currency.length ≠ 3 then
    Except.error ("Invalid currency format: " ++ result.currency
      ++ ". Expected 3-letter code (e.g., USD, EUR)")
  else if errTruthy result.errorText ∧ 0 < result.items.length then
    Except.error "Images with errors should have empty items array"
  else
    match result.additionalCosts with
    | none =>
      Except.ok (reconciliationWarnings result ++ advisoryWarnings result)
    | some costs =>
      match checkAdditionalCosts costs with
      | Except.ok _ =>
        Except.ok (reconciliationWarnings result ++ advisoryWarnings result)
      | Except.error e => Except.error e

/-- Whether an exceptional computation returned without throwing. -/
def exceptOk {ε α : Type} : Except ε α → Bool
  | Except.ok _ => true
  | Except.error _ => false

/-- Whether `validateBusinessLogic` returns without throwing. -/
def accepted (r : ReceiptAnalysisResult) : Bool :=
  exceptOk (validateBusinessLogic r)

/-- The pipeline of the inner try of `processReceiptImage`: the structured
output parser enforces the Zod schema, then the business validation runs. -/
def pipelineAccepts (r : ReceiptAnalysisResult) : Bool :=
  r.schemaOk && accepted r

/-- The safe default substituted when parsing or validation fails inside
`processReceiptImage`. -/
def safeDefaultParsingError : ReceiptAnalysisResult :=
  { items := []
    additionalCosts := some []
    totalPrice := 0
    currency := "USD"
    currencySymbol := some "$"
    errorText := some "parsing error" }

/-- The safe default substituted when the outer catch of
`processReceiptImage` recognises a parsing/validation/schema failure. -/
def safeDefaultProcessingError : ReceiptAnalysisResult :=
  { items := []
    additionalCosts := some []
    totalPrice := 0
    currency := "USD"
    currencySymbol := some "$"
    errorText := some "processing error" }

/-- The inner try/catch of `processReceiptImage`: a failed parse, or a
parsed result on which `validateBusinessLogic` throws, yields the safe
default; otherwise the parsed result goes through unchanged. -/
def processParsedResponse :
    Except String ReceiptAnalysisResult → ReceiptAnalysisResult
  | Except.error _ => safeDefaultParsingError
  | Except.ok result =>
    match validateBusinessLogic result with
    | Except.ok _ => result
    | Except.error _ => safeDefaultParsingError

/-- Lines 106-111 of the processor: validate, then return the very value
that was validated. -/
def validateAndReturn (result : ReceiptAnalysisResult) :
    Except String ReceiptAnalysisResult :=
  match validateBusinessLogic result with
  | Except.ok _ => Except.ok result
  | Except.error e => Except.error e

/-- A minimal well-formed result: no items, zero total, USD, no error. -/
def exBase : ReceiptAnalysisResult :=
  { items := [], additionalCosts := none, totalPrice := 0,
    currency := "USD", currencySymbol := none, errorText := none }

/-- The arithmetic-tolerance example with the matching total 17.99. -/
def exArith1799 : ReceiptAnalysisResult :=
  { exBase with
    items := [⟨"a", 2, 4.50⟩, ⟨"b", 1, 8.99⟩], totalPrice := 17.99 }

/-- The arithmetic-tolerance example with the mismatching total 20.00. -/
def exArith2000 : ReceiptAnalysisResult :=
  { exBase with
    items := [⟨"a", 2, 4.50⟩, ⟨"b", 1, 8.99⟩], totalPrice := 20.00 }

/-- The additional-cost inclusion example: subtotal 10.00 plus an included
cost of 1.00 against a reported total of 11.00. -/
def exInclusion : ReceiptAnalysisResult :=
  { exBase with
    items := [⟨"x", 1, 10.00⟩],
    additionalCosts := some [⟨"tax", 1.00, true⟩], totalPrice := 11.00 }

/-- A result with the two-letter currency code "US". -/
def exShortCurrency : ReceiptAnalysisResult := { exBase with currency := "US" }

/-- A result with the eight-letter currency value "USDOLLAR". -/
def exLongCurrency : ReceiptAnalysisResult :=
  { exBase with currency := "USDOLLAR" }

/-- A result with an empty currency string. -/
def exEmptyCurrency : ReceiptAnalysisResult := { exBase with currency := "" }

/-- A result carrying an error text alongside a non-empty items list. -/
def exErrorWithItems : ReceiptAnalysisResult :=
  { exBase with errorText := some "not a receipt", items := [⟨"dog", 1, 5⟩] }

/-- An additional cost with a negative amount. -/
def negCost : AdditionalCost := ⟨"fee", -1, false⟩

/-- A result containing a negative additional cost. -/
def exNegativeCost : ReceiptAnalysisResult :=
  { exBase with additionalCosts := some [negCost] }

/-- A rejected result: error text together with items. -/
def exRejected : ReceiptAnalysisResult :=
  { exBase with errorText := some "too blurry", items := [⟨"item", 1, 3⟩] }

lemma strLength_eq_zero (s : String) : s.length = 0 ↔ s = "" := by
  constructor
  · intro h
    cases s with
    | mk l =>
      cases l with
      | nil => rfl
      | cons c cs => simp at h
  · intro h
    subst h
    rfl

lemma strTrim_empty : strTrim "" = "" := rfl

lemma checkAdditionalCosts_ok_iff (cs : List AdditionalCost) :
    checkAdditionalCosts cs = Except.ok () ↔
      ∀ c ∈ cs, 0 ≤ c.amount ∧ strTrim c.name ≠ "" := by
  induction cs with
  | nil => simp [checkAdditionalCosts]
  | cons c rest ih =>
    simp only [checkAdditionalCosts]
    split_ifs with h1 h2
    · apply iff_of_false
      · simp
      · intro h
        exact absurd (h c (List.mem_cons_self c rest)).1 (not_le.mpr h1)
    · apply iff_of_false
      · simp
      · intro h
        apply (h c (List.mem_cons_self c rest)).2
        rcases h2 with h2 | h2
        · rw [h2]; exact strTrim_empty
        · exact (strLength_eq_zero _).mp h2
    · rw [ih]
      push_neg at h2
      constructor
      · intro h
        intro x hx
        rcases List.mem_cons.mp hx with hx | hx
        · subst hx
          refine ⟨not_lt.mp h1, ?_⟩
          intro habs
          exact h2.2 ((strLength_eq_zero _).mpr habs)
        · exact h x hx
      · intro h x hx
        exact h x (List.mem_cons_of_mem c hx)

lemma accepted_iff (r : ReceiptAnalysisResult) :
    accepted r = true ↔
      (r.currency ≠ "" → r.currency.length = 3)
      ∧ (errTruthy r.errorText = true → r.items = [])
      ∧ (∀ c ∈ r.additionalCosts.getD [], 0 ≤ c.amount ∧ strTrim c.name ≠ "") := by
  unfold accepted validateBusinessLogic
  split_ifs with h1 h2
  · apply iff_of_false
    · simp [exceptOk]
    · intro ⟨hc, _, _⟩
      exact h1.2 (hc h1.1)
  · apply iff_of_false
    · simp [exceptOk]
    · intro ⟨_, he, _⟩
      rw [he h2.1] at h2
      exact absurd h2.2 (by simp)
  · cases hac : r.additionalCosts with
    | none =>
      apply iff_of_true
      · simp [exceptOk]
      · push_neg at h1 h2
        refine ⟨fun hc => h1 hc, ?_, ?_⟩
        · intro he
          exact List.length_eq_zero.mp (Nat.le_zero.mp (h2 he))
        · simp [hac]
    | some costs =>
      cases hchk : checkAdditionalCosts costs with
      | ok u =>
        cases u
        apply iff_of_true
        · simp [exceptOk, hchk]
        · push_neg at h1 h2
          refine ⟨fun hc => h1 hc, ?_, ?_⟩
          · intro he
            exact List.length_eq_zero.mp (Nat.le_zero.mp (h2 he))
          · simp only [hac, Option.getD_some]
            exact (checkAdditionalCosts_ok_iff costs).mp hchk
      | error e =>
        apply iff_of_false
        · simp [exceptOk, hchk]
        · intro ⟨_, _, hcost⟩
          simp only [hac, Option.getD_some] at hcost
          have := (checkAdditionalCosts_ok_iff costs).mpr hcost
          rw [this] at hchk
          exact Except.noConfusion hchk

lemma foldl_add_map {α : Type} (f : α → ℚ) :
    ∀ (l : List α) (a : ℚ),
      l.foldl (fun sum x => sum + f x) a = a + (l.map f).sum
  | [], a => by simp
  | x :: xs, a => by
    simp only [List.foldl_cons, List.map_cons, List.sum_cons]
    rw [foldl_add_map f xs (a + f x)]
    ring

/-- Claim C1: whenever `validateBusinessLogic` returns without throwing,
the result satisfies rules 1-3 exactly — a non-empty currency has length
exactly 3, a set and non-empty errorText forces an empty items list, and
every additional cost has a nonnegative amount and a name that is
non-empty after trimming — and conversely those three rules alone settle
acceptance, so violations of the reconciliation rule 4 or the
empty-result advisory rule 5 never block it. -/
theorem claim1_accepted_iff_rules_1_to_3 (r : ReceiptAnalysisResult) :
    accepted r = true ↔
      (r.currency ≠ "" → r.currency.length = 3)
      ∧ (∀ s, r.errorText = some s → s ≠ "" → r.items = [])
      ∧ (∀ c ∈ r.additionalCosts.getD [],
          0 ≤ c.amount ∧ strTrim c.name ≠ "") := by
  rw [accepted_iff]
  constructor
  · rintro ⟨hc, he, ha⟩
    refine ⟨hc, ?_, ha⟩
    intro s hs hne
    apply he
    simp [errTruthy, hs, bne_iff_ne, hne]
  · rintro ⟨hc, he, ha⟩
    refine ⟨hc, ?_, ha⟩
    intro ht
    cases hs : r.errorText with
    | none => rw [hs] at ht; exact absurd ht (by simp [errTruthy])
    | some s =>
      rw [hs] at ht
      simp only [errTruthy, bne_iff_ne, ne_eq, decide_eq_true_eq] at ht
      exact he s hs ht

/-- Claim C1 witness: the minimal well-formed result is accepted. -/
theorem claim1_witness : accepted exBase = true :=
  (claim1_accepted_iff_rules_1_to_3 exBase).mpr
    ⟨fun _ => by decide,
     fun s hs _ => Option.noConfusion hs,
     fun c hc => absurd hc (List.not_mem_nil c)⟩

/-- Claim C2: a currency whose length is not 3 is never accepted by the
parse-then-validate pipeline — the empty string already fails the Zod
schema, and any non-empty string of the wrong length makes
`validateBusinessLogic` throw. -/
theorem claim2_currency_length_3_required (r : ReceiptAnalysisResult)
    (h : r.currency.length ≠ 3) :
    ReceiptAnalysisResult.schemaOk r = false ∨ accepted r = false := by
  by_cases hc : r.currency = ""
  · left
    have h0 : "".length = 0 := rfl
    simp [ReceiptAnalysisResult.schemaOk, hc, h0]
  · right
    cases hacc : accepted r with
    | false => rfl
    | true => exact absurd (((accepted_iff r).mp hacc).1 hc) h

/-- Claim C2 witness: "US", "USDOLLAR" and "" are each refused by the
schema or rejected by the validator. -/
theorem claim2_witness :
    (ReceiptAnalysisResult.schemaOk exShortCurrency = false
      ∨ accepted exShortCurrency = false)
    ∧ (ReceiptAnalysisResult.schemaOk exLongCurrency = false
        ∨ accepted exLongCurrency = false)
    ∧ (ReceiptAnalysisResult.schemaOk exEmptyCurrency = false
        ∨ accepted exEmptyCurrency = false) :=
  ⟨claim2_currency_length_3_required exShortCurrency (by decide),
   claim2_currency_length_3_required exLongCurrency (by decide),
   claim2_currency_length_3_required exEmptyCurrency (by decide)⟩

/-- Claim C3: a set, non-empty errorText together with a non-empty items
list makes `validateBusinessLogic` throw. -/
theorem claim3_error_items_exclusivity (r : ReceiptAnalysisResult)
    (s : String) (hs : r.errorText = some s) (hne : s ≠ "")
    (hitems : r.items ≠ []) : accepted r = false := by
  cases hacc : accepted r with
  | false => rfl
  | true =>
    have he := ((accepted_iff r).mp hacc).2.1
    have : r.items = [] := he (by simp [errTruthy, hs, bne_iff_ne, hne])
    exact absurd this hitems

/-- Claim C3 witness: an error text alongside items is rejected. -/
theorem claim3_witness :
    exErrorWithItems.errorText = some "not a receipt"
    ∧ "not a receipt" ≠ ""
    ∧ exErrorWithItems.items ≠ []
    ∧ accepted exErrorWithItems = false :=
  ⟨rfl, by decide, by decide,
   claim3_error_items_exclusivity exErrorWithItems "not a receipt" rfl
     (by decide) (by decide)⟩

/-- Claim C4: an additional cost with a negative amount, or with a name
that is empty after trimming, makes `validateBusinessLogic` throw. -/
theorem claim4_additional_cost_sanity (r : ReceiptAnalysisResult)
    (cs : List AdditionalCost) (c : AdditionalCost)
    (hac : r.additionalCosts = some cs) (hmem : c ∈ cs)
    (hbad : c.amount < 0 ∨ strTrim c.name = "") : accepted r = false := by
  cases hacc : accepted r with
  | false => rfl
  | true =>
    have h := ((accepted_iff r).mp hacc).2.2
    simp only [hac, Option.getD_some] at h
    rcases hbad with hb | hb
    · exact absurd (h c hmem).1 (not_le.mpr hb)
    · exact absurd hb (h c hmem).2

/-- Claim C4 witness: a negative additional cost is rejected. -/
theorem claim4_witness :
    exNegativeCost.additionalCosts = some [negCost]
    ∧ negCost ∈ [negCost]
    ∧ (negCost.amount < 0 ∨ strTrim negCost.name = "")
    ∧ accepted exNegativeCost = false :=
  ⟨rfl, by decide, Or.inl (by decide),
   claim4_additional_cost_sanity exNegativeCost [negCost] negCost rfl
     (by decide) (Or.inl (by decide))⟩

/-- Claim C5: with errorText falsy and items present, the validator sums
price times quantity over the items and the amounts of the
included-flagged additional costs, and the total-mismatch diagnostic
appears exactly when the absolute difference from totalPrice exceeds the
one-cent tolerance; the inclusion example (10.00 + 1.00 against 11.00)
yields no diagnostic. -/
theorem claim5_reconciliation_diagnostic :
    (∀ items, itemsTotal items
      = (items.map fun i => i.price * i.quantity).sum)
    ∧ (∀ costs, includedAdditionalCosts costs
        = ((costs.filter fun c => c.additionalCost).map
            fun c => c.amount).sum)
    ∧ (∀ r : ReceiptAnalysisResult, errTruthy r.errorText = false →
        0 < r.items.length →
        (reconciliationWarnings r ≠ [] ↔
          tolerance < mathAbs (itemsTotal r.items
            + includedAdditionalCosts (r.additionalCosts.getD [])
            - r.totalPrice)))
    ∧ validateBusinessLogic exInclusion = Except.ok [] := by
  refine ⟨?_, ?_, ?_, ?_⟩
  · intro items
    simpa using foldl_add_map (fun i : ReceiptItem => i.price * i.quantity)
      items 0
  · intro costs
    simpa using foldl_add_map (fun c : AdditionalCost => c.amount)
      (costs.filter fun c => c.additionalCost) 0
  · intro r he hi
    unfold reconciliationWarnings
    split_ifs with hg ht
    · simp [ht]
    · simp [ht]
    · exact absurd ⟨by simp [he], hi⟩ hg
  · norm_num [validateBusinessLogic, reconciliationWarnings,
      advisoryWarnings, itemsTotal, includedAdditionalCosts,
      checkAdditionalCosts, errTruthy, tolerance, mathAbs, exBase,
      exInclusion, show "USD".length = 3 from by decide,
      show ¬("tax" = "" ∨ (strTrim "tax").length = 0) from by decide]

/-- Claim C5 witness: the reconciliation characterisation instantiated at
the mismatching arithmetic example. -/
theorem claim5_witness :
    errTruthy exArith2000.errorText = false
    ∧ 0 < exArith2000.items.length
    ∧ (reconciliationWarnings exArith2000 ≠ [] ↔
        tolerance < mathAbs (itemsTotal exArith2000.items
          + includedAdditionalCosts (exArith2000.additionalCosts.getD [])
          - exArith2000.totalPrice)) :=
  ⟨by decide, by decide,
   claim5_reconciliation_diagnostic.2.2.1 exArith2000 (by decide)
     (by decide)⟩

/-- Claim C6: a result with no errorText that satisfies rules 1-3 is
accepted no matter how far the calculated total drifts from totalPrice;
concretely, items 2 x 4.50 and 1 x 8.99 with total 17.99 are accepted with
no diagnostic, and with total 20.00 they are still accepted, with only the
mismatch diagnostic. -/
theorem claim6_tolerance_never_rejects :
    (∀ r : ReceiptAnalysisResult, r.errorText = none →
      (r.currency ≠ "" → r.currency.length = 3) →
      (∀ c ∈ r.additionalCosts.getD [],
        0 ≤ c.amount ∧ strTrim c.name ≠ "") →
      accepted r = true)
    ∧ validateBusinessLogic exArith1799 = Except.ok []
    ∧ validateBusinessLogic exArith2000
        = Except.ok [Warning.totalPriceMismatch 17.99 20.00] := by
  refine ⟨?_, ?_, ?_⟩
  · intro r he hc ha
    refine (accepted_iff r).mpr ⟨hc, ?_, ha⟩
    intro ht
    rw [he] at ht
    exact absurd ht (by simp [errTruthy])
  · norm_num [validateBusinessLogic, reconciliationWarnings,
      advisoryWarnings, itemsTotal, includedAdditionalCosts,
      checkAdditionalCosts, errTruthy, tolerance, mathAbs, exBase,
      exArith1799, show "USD".length = 3 from by decide]
  · norm_num [validateBusinessLogic, reconciliationWarnings,
      advisoryWarnings, itemsTotal, includedAdditionalCosts,
      checkAdditionalCosts, errTruthy, tolerance, mathAbs, exBase,
      exArith2000, show "USD".length = 3 from by decide]

/-- Claim C6 witness: the acceptance conjunct instantiated at the
mismatching arithmetic example. -/
theorem claim6_witness : accepted exArith2000 = true :=
  claim6_tolerance_never_rejects.1 exArith2000 rfl (fun _ => by decide)
    (fun c hc => absurd hc (List.not_mem_nil c))

/-- Claim C7: inside `processReceiptImage`, a parse failure or a parsed
result on which `validateBusinessLogic` throws never propagates: the safe
default with errorText "parsing error" is returned instead. -/
theorem claim7_safe_default_on_failure :
    (∀ e : String,
      processParsedResponse (Except.error e) = safeDefaultParsingError)
    ∧ (∀ r : ReceiptAnalysisResult, accepted r = false →
        processParsedResponse (Except.ok r) = safeDefaultParsingError) := by
  constructor
  · intro e
    rfl
  · intro r h
    unfold processParsedResponse
    cases hv : validateBusinessLogic r with
    | ok w =>
      unfold accepted at h
      rw [hv] at h
      exact absurd h (by simp [exceptOk])
    | error e => simp [hv]

/-- Claim C7 witness: the claimed raw-output example and a concrete
rejected result both map to the safe default. -/
theorem claim7_witness :
    processParsedResponse (Except.error "not valid json\x7b\x7b")
      = safeDefaultParsingError
    ∧ accepted exRejected = false
    ∧ processParsedResponse (Except.ok exRejected)
        = safeDefaultParsingError :=
  ⟨claim7_safe_default_on_failure.1 _, by decide,
   claim7_safe_default_on_failure.2 exRejected (by decide)⟩

/-- Claim C8: the validator is pure — validating returns the very value it
checked, so an accepted value re-validates to the same acceptance with an
identical value. -/
theorem claim8_validator_pure_idempotent (r r' : ReceiptAnalysisResult)
    (h : validateAndReturn r = Except.ok r') :
    r' = r ∧ validateAndReturn r' = Except.ok r' := by
  unfold validateAndReturn at h ⊢
  cases hv : validateBusinessLogic r with
  | ok w =>
    rw [hv] at h
    simp only at h
    cases h
    exact ⟨rfl, by rw [hv]⟩
  | error e =>
    rw [hv] at h
    exact Except.noConfusion h

/-- Claim C8 witness: re-validating the accepted minimal result returns it
unchanged. -/
theorem claim8_witness :
    validateAndReturn exBase = Except.ok exBase
    ∧ (exBase = exBase ∧ validateAndReturn exBase = Except.ok exBase) := by
  have h : validateAndReturn exBase = Except.ok exBase := by decide
  exact ⟨h, claim8_validator_pure_idempotent exBase exBase h⟩

/-- Claim C9: both safe defaults pass `validateBusinessLogic` without
throwing (and without diagnostics), so a substituted fallback can never
itself be rejected. -/
theorem claim9_safe_defaults_validate :
    validateBusinessLogic safeDefaultParsingError = Except.ok []
    ∧ validateBusinessLogic safeDefaultProcessingError = Except.ok [] :=
  ⟨rfl, rfl⟩

/-- Claim C10: an errorText equal to the empty string behaves exactly like
an absent errorText — the validator computes the same outcome for both;
with items present the exclusivity check does not fire and reconciliation
still runs, and with no items the empty-result advisory is taken. -/
theorem claim10_empty_errorText_like_absent :
    (∀ r : ReceiptAnalysisResult,
      validateBusinessLogic { r with errorText := some "" }
        = validateBusinessLogic { r with errorText := none })
    ∧ validateBusinessLogic { exArith2000 with errorText := some "" }
        = Except.ok [Warning.totalPriceMismatch 17.99 20.00]
    ∧ validateBusinessLogic { exBase with errorText := some "" }
        = Except.ok [Warning.noItemsFound] := by
  refine ⟨?_, ?_, ?_⟩
  · intro r
    unfold validateBusinessLogic reconciliationWarnings advisoryWarnings
    simp [errTruthy]
  · norm_num [validateBusinessLogic, reconciliationWarnings,
      advisoryWarnings, itemsTotal, includedAdditionalCosts,
      checkAdditionalCosts, errTruthy, tolerance, mathAbs, exBase,
      exArith2000, show "USD".length = 3 from by decide]
  · rfl
